import Mathlib

/-!
Shallow embedding of the interview-evaluation backend
(`backend/app/services/llm.py`, `backend/app/services/rag.py`,
`backend/app/api/interview.py`) and proofs about the claims of the
specification.  Strings are modelled as Lean `String`s; the Python string
helpers used by the source (`strip`, `split`, `lower`, `replace`,
`startswith`, substring membership, the two regexes) are implemented below
over `List Char`.  Python `float` scores are idealized as exact rationals:
every constant in the source is an exact decimal.  They are represented by
the unnormalized fraction type `Frac` (so that the kernel can evaluate the
pipeline on concrete inputs) and interpreted into `ℚ` via `Frac.toRat`;
all fractions built by the pipeline have positive denominators.
Timestamps are integers (minutes).
-/

/-- An unnormalized nonnegative fraction `num / den`; the exact-rational
model of the nonnegative Python floats occurring in the source. -/
structure Frac where
  num : ℕ
  den : ℕ
deriving DecidableEq, Repr

/-- Interpretation of a `Frac` as a rational number. -/
def Frac.toRat (f : Frac) : ℚ := (f.num : ℚ) / (f.den : ℚ)

/-- Embed a natural-number literal. -/
def Frac.ofNat (n : ℕ) : Frac := ⟨n, 1⟩

/-- Ten raised to a power, as a fraction denominator. -/
def Frac.add (a b : Frac) : Frac := ⟨a.num * b.den + b.num * a.den, a.den * b.den⟩

/-- Strict comparison by cross-multiplication (valid for positive denominators). -/
def Frac.blt (a b : Frac) : Bool := a.num * b.den < b.num * a.den

/-- Equality test by cross-multiplication (valid for positive denominators). -/
def Frac.beq (a b : Frac) : Bool := a.num * b.den == b.num * a.den

/-- Python `min` on two floats. -/
def Frac.fmin (a b : Frac) : Frac := if Frac.blt b a then b else a

/-- Python `max` on two floats. -/
def Frac.fmax (a b : Frac) : Frac := if Frac.blt a b then b else a

/-- Multiplication by a natural number (`matches * 0.3`). -/
def Frac.mulNat (a : Frac) (m : ℕ) : Frac := ⟨a.num * m, a.den⟩

/-- ASCII whitespace, the character class stripped and split on by Python
`str.strip` / `str.split` (all literals in the source are ASCII). -/
def isWsC (c : Char) : Bool :=
  c == ' ' || c == '\t' || c == '\n' || c == '\r' || c == '\x0b' || c == '\x0c'

/-- Python `str.strip()` on a list of characters. -/
def stripL (l : List Char) : List Char :=
  ((l.dropWhile isWsC).reverse.dropWhile isWsC).reverse

/-- Helper for `pyTokens`: accumulate the current (reversed) token. -/
def tokensAux : List Char → List Char → List (List Char)
  | [], acc => if acc.isEmpty then [] else [acc.reverse]
  | c :: cs, acc =>
    if isWsC c then
      if acc.isEmpty then tokensAux cs [] else acc.reverse :: tokensAux cs []
    else tokensAux cs (c :: acc)

/-- Python `str.split()` (split on whitespace runs, no empty tokens). -/
def pyTokens (l : List Char) : List (List Char) := tokensAux l []

/-- Helper for `splitNl`. -/
def splitNlAux : List Char → List Char → List (List Char)
  | [], acc => [acc.reverse]
  | c :: cs, acc =>
    if c == '\n' then acc.reverse :: splitNlAux cs []
    else splitNlAux cs (c :: acc)

/-- Python `str.split('\n')` (keeps empty pieces). -/
def splitNl (l : List Char) : List (List Char) := splitNlAux l []

/-- Python `str.startswith` on character lists. -/
def startsWithL : List Char → List Char → Bool
  | [], _ => true
  | _ :: _, [] => false
  | p :: ps, c :: cs => p == c && startsWithL ps cs

/-- Python substring membership `needle in hay` on character lists. -/
def containsL (needle : List Char) : List Char → Bool
  | [] => startsWithL needle []
  | c :: cs => startsWithL needle (c :: cs) || containsL needle cs

/-- Fuel-driven helper for `replaceAllL` (the fuel is the input length, which
bounds the number of steps since every step consumes at least one character
for a non-empty pattern). -/
def replaceAllAux (pat : List Char) : ℕ → List Char → List Char
  | 0, l => l
  | _ + 1, [] => []
  | fuel + 1, c :: cs =>
    if startsWithL pat (c :: cs) && !pat.isEmpty then
      replaceAllAux pat fuel (cs.drop (pat.length - 1))
    else c :: replaceAllAux pat fuel cs

/-- Python `str.replace(pat, "")` for a non-empty `pat`: delete every
(left-to-right, non-overlapping) occurrence of `pat`. -/
def replaceAllL (pat l : List Char) : List Char := replaceAllAux pat l.length l

/-- Python `str.lower()` (ASCII, as in all literals the source compares). -/
def toLowerL (l : List Char) : List Char := l.map Char.toLower

/-- Digits to a natural number (the digit runs matched by the score regex). -/
def digitsToNat (ds : List Char) : ℕ :=
  ds.foldl (fun n c => 10 * n + (c.toNat - 48)) 0

/-- First match of the regex `(\d+(?:\.\d+)?)` in a character list, as the
exact rational value Python's `float()` conversion denotes. -/
def firstNumber : List Char → Option Frac
  | [] => none
  | c :: cs =>
    if c.isDigit then
      let intDs := c :: cs.takeWhile (·.isDigit)
      let rest := cs.dropWhile (·.isDigit)
      let fracDs :=
        match rest with
        | '.' :: r2 =>
          match r2 with
          | d :: _ => if d.isDigit then r2.takeWhile (·.isDigit) else []
          | [] => []
        | _ => []
      some ⟨digitsToNat intDs * 10 ^ fracDs.length + digitsToNat fracDs, 10 ^ fracDs.length⟩
    else firstNumber cs

/-- Character-by-character helper for `countRealWords`.  `prevW` records
whether the previous character was a word character (`[A-Za-z0-9_]`),
`leftOk` whether the left boundary of the current alphabetic run was a word
boundary, and `runLen` the length of the current alphabetic run. -/
def crwAux (prevW leftOk : Bool) (runLen : ℕ) : List Char → ℕ
  | [] => if decide (3 ≤ runLen) && leftOk then 1 else 0
  | c :: cs =>
    if c.isAlpha then
      if runLen == 0 then crwAux true (!prevW) 1 cs
      else crwAux true leftOk (runLen + 1) cs
    else
      (if decide (3 ≤ runLen) && leftOk && !(c.isDigit || c == '_') then 1 else 0) +
        crwAux (c.isAlphanum || c == '_') false 0 cs

/-- Count of matches of `\b[a-zA-Z]{3,}\b` (the "real word" regex of
`_parse_evaluation_response`): maximal alphabetic runs of length ≥ 3 whose
neighbouring characters, when present, are not word characters. -/
def countRealWords (l : List Char) : ℕ := crwAux false false 0 l

/-- The `word_ratio` computed by the gibberish check:
`len(words) / max(1, len(answer.split()))`. -/
def wordRatio (answer : List Char) : Frac :=
  ⟨countRealWords answer, max 1 (pyTokens answer).length⟩

/-- Join feedback parts with `"\n\n"` (Python `"\n\n".join`). -/
def joinFb : List (List Char) → List Char
  | [] => []
  | [p] => p
  | p :: ps => p ++ '\n' :: '\n' :: joinFb ps

/-- The rubric sections tracked by `_parse_evaluation_response`'s
`current_section` variable. -/
inductive CurSect
  | score
  | relevance
  | content
  | missing
  | sugg
deriving DecidableEq, Repr

/-- Accumulator state of the line scan in `_parse_evaluation_response`. -/
structure ScanSt where
  score : Frac
  fparts : List (List Char)
  sugg : List (List Char)
  cur : Option CurSect
deriving DecidableEq, Repr

/-- Append a string to the last feedback part (`feedback_parts[-1] += ...`). -/
def appendLast : List (List Char) → List Char → List (List Char)
  | [], _ => []
  | [p], s => [p ++ s]
  | p :: ps, s => p :: appendLast ps s

/-- The redundant re-check `any(line.startswith(p + ":") for p in [...])`
in the continuation branch of `_parse_evaluation_response`. -/
def headerHit (line : List Char) : Bool :=
  startsWithL "Score:".data line || startsWithL "Relevance_Check:".data line ||
  startsWithL "Content_Quality:".data line || startsWithL "Missing_Elements:".data line ||
  startsWithL "Improvement_Suggestions:".data line

/-- The bullet test for suggestion continuation lines:
`line.startswith(("- ", "* ", "• ")) or (len(line) > 2 and line[0].isdigit() and line[1] in ".)")`. -/
def isBulletLine (line : List Char) : Bool :=
  startsWithL "- ".data line || startsWithL "* ".data line || startsWithL "• ".data line ||
  (match line with
   | c0 :: c1 :: _ :: _ => c0.isDigit && (c1 == '.' || c1 == ')')
   | _ => false)

/-- The character set of `line.lstrip("- *•0123456789.)")`. -/
def bulletChars : List Char := "- *•0123456789.)".data

/-- Processing of one line of the generation output by
`_parse_evaluation_response` (the body of its `for line in lines` loop). -/
def procLine (st : ScanSt) (raw : List Char) : ScanSt :=
  let line := stripL raw
  if line.isEmpty then st
  else if startsWithL "Score:".data line then
    let t := stripL (replaceAllL "Score:".data line)
    { st with cur := some CurSect.score,
              score := match firstNumber t with
                       | some v => v
                       | none => ⟨0, 1⟩ }
  else if startsWithL "Relevance_Check:".data line then
    { st with cur := some CurSect.relevance,
              fparts := st.fparts ++ ["Relevance: ".data ++ stripL (replaceAllL "Relevance_Check:".data line)] }
  else if startsWithL "Content_Quality:".data line then
    { st with cur := some CurSect.content,
              fparts := st.fparts ++ ["Content Quality: ".data ++ stripL (replaceAllL "Content_Quality:".data line)] }
  else if startsWithL "Missing_Elements:".data line then
    { st with cur := some CurSect.missing,
              fparts := st.fparts ++ ["Missing Elements: ".data ++ stripL (replaceAllL "Missing_Elements:".data line)] }
  else if startsWithL "Improvement_Suggestions:".data line then
    let c := stripL (replaceAllL "Improvement_Suggestions:".data line)
    { st with cur := some CurSect.sugg,
              sugg := if c.isEmpty then st.sugg else st.sugg ++ [c] }
  else
    match st.cur with
    | none => st
    | some sec =>
      if headerHit line then st
      else
        match sec with
        | CurSect.relevance | CurSect.content | CurSect.missing =>
          if st.fparts.isEmpty then st
          else { st with fparts := appendLast st.fparts (' ' :: line) }
        | CurSect.sugg =>
          if isBulletLine line then
            { st with sugg := st.sugg ++ [stripL (line.dropWhile (fun c => bulletChars.contains c))] }
          else { st with sugg := st.sugg ++ [line] }
        | CurSect.score => st

/-- The whole line scan of `_parse_evaluation_response`. -/
def scanLines (resp : List Char) : ScanSt :=
  (splitNl resp).foldl procLine ⟨⟨0, 1⟩, [], [], none⟩

/-- The structured evaluation produced by the pipeline (score, feedback,
suggestions), `EvaluationResult` of the specification. -/
structure EvalResult where
  score : Frac
  feedback : String
  suggestions : List String
deriving DecidableEq, Repr

/-- The `keywords_map` of `_get_domain_keywords` (`.get(domain, [])`). -/
def domainKeywords (domain : String) : List String :=
  if domain = "software_engineering" ∨ domain = "Software Engineering" then
    ["algorithm", "complexity", "scalability", "design pattern", "OOP", "SOLID",
     "database", "API", "REST", "microservices", "testing", "debugging", "optimization",
     "data structure", "array", "linked list", "tree", "graph", "hash", "performance"]
  else if domain = "data_science" ∨ domain = "Data Science" then
    ["statistics", "probability", "regression", "classification", "clustering", "model",
     "feature", "dataset", "correlation", "variance", "bias", "validation", "cross-validation",
     "pandas", "numpy", "matplotlib", "sklearn", "analysis", "hypothesis", "p-value"]
  else if domain = "ai_ml" ∨ domain = "AI/ML" then
    ["neural network", "deep learning", "gradient", "backpropagation", "overfitting",
     "regularization", "CNN", "RNN", "transformer", "attention", "training", "inference",
     "supervised", "unsupervised", "reinforcement", "algorithm", "optimization", "loss function"]
  else if domain = "hardware_ece" ∨ domain = "Hardware/ECE" then
    ["circuit", "voltage", "current", "resistance", "capacitor", "inductor", "transistor",
     "amplifier", "digital", "analog", "microcontroller", "FPGA", "PCB", "signal", "power",
     "frequency", "impedance", "oscilloscope", "multimeter", "semiconductor"]
  else if domain = "robotics" ∨ domain = "Robotics" then
    ["sensor", "actuator", "control", "PID", "kinematics", "dynamics", "path planning",
     "localization", "mapping", "SLAM", "computer vision", "feedback", "servo", "motor",
     "encoder", "IMU", "lidar", "camera", "autonomous", "navigation"]
  else []

/-- The `suggestions_map` of `_get_domain_specific_suggestions`, with its
generic default bank. -/
def domainSuggestions (domain : String) : List String :=
  if domain = "software_engineering" ∨ domain = "Software Engineering" then
    ["Discuss time and space complexity when relevant",
     "Consider scalability and maintainability",
     "Include specific design patterns or principles"]
  else if domain = "data_science" ∨ domain = "Data Science" then
    ["Mention relevant statistical concepts",
     "Discuss data preprocessing and validation",
     "Consider model evaluation metrics"]
  else if domain = "ai_ml" ∨ domain = "AI/ML" then
    ["Explain the mathematical intuition behind algorithms",
     "Discuss model architecture choices",
     "Consider training and inference optimization"]
  else if domain = "hardware_ece" ∨ domain = "Hardware/ECE" then
    ["Include circuit analysis or component specifications",
     "Discuss power consumption and efficiency",
     "Consider real-world constraints and tolerances"]
  else if domain = "robotics" ∨ domain = "Robotics" then
    ["Discuss sensor fusion and perception",
     "Consider real-time constraints",
     "Include control theory concepts when relevant"]
  else
    ["Provide more specific technical details",
     "Include examples from real-world applications",
     "Structure your answer clearly"]

/-- Fixed feedback of the gibberish branch of `_parse_evaluation_response`. -/
def gibberishFeedback : String :=
  "Your response appears to be gibberish or random characters. Please provide a coherent answer that addresses the technical question asked."

/-- Fixed suggestion set of the gibberish branch. -/
def gibberishSuggestions : List String :=
  ["Read the question carefully and ensure you understand what is being asked",
   "Provide a structured response with clear explanations",
   "Use proper technical terminology relevant to the domain",
   "Include specific examples or use cases where appropriate"]

/-- The length-based fallback branch of `_parse_evaluation_response`
(`length_score = min(9, max(4, len(answer.split()) / 8))` with its
word-count feedback bands). -/
def lengthFallback (answer domain : String) : EvalResult :=
  let n := (pyTokens answer.data).length
  let score := Frac.fmin ⟨9, 1⟩ (Frac.fmax ⟨4, 1⟩ ⟨n, 8⟩)
  if n < 15 then
    ⟨score,
     "Your answer demonstrates understanding but could benefit from more detailed explanations and specific examples.",
     ["Provide more detailed explanations of key concepts",
      "Include specific examples or use cases",
      "Discuss relevant technical approaches or methodologies"]⟩
  else if 100 < n then
    ⟨score,
     "You provided a very comprehensive answer with excellent detail. Your thorough approach shows strong understanding.",
     ["Consider organizing complex responses with clear structure",
      "Focus on the most critical aspects first",
      "Practice concise summaries of key points"]⟩
  else
    ⟨score,
     "Solid answer that demonstrates good understanding. You covered the important concepts well.",
     ["Include more technical terminology specific to " ++ domain,
      "Provide concrete examples to reinforce your points",
      "Consider discussing trade-offs or alternative approaches"]⟩

/-- The final `if not result["suggestions"]` fill of
`_parse_evaluation_response`. -/
def fillSugg (r : EvalResult) (domain : String) : EvalResult :=
  if r.suggestions.isEmpty then { r with suggestions := domainSuggestions domain } else r

/-- Keyword-match count of `_get_fallback_evaluation`:
`sum(1 for keyword in domain_keywords if keyword.lower() in answer.lower())`. -/
def fallbackKeywordMatches (domain answer : String) : ℕ :=
  ((domainKeywords domain).filter (fun k => containsL (toLowerL k.data) (toLowerL answer.data))).length

/-- Embedding of `_get_fallback_evaluation`: word-count band scoring, keyword boost,
domain-specific suggestions. -/
def fallbackEvaluation (question answer domain : String) : EvalResult :=
  let n := (pyTokens answer.data).length
  let base : Frac × String :=
    if n < 5 then
      (⟨2, 1⟩, "Your answer is too brief. Technical interviews require detailed explanations with specific examples.")
    else if n < 15 then
      (⟨4, 1⟩, "Your answer covers some basics but needs more detail. Try to explain the reasoning behind your approach.")
    else if n < 40 then
      (⟨65, 10⟩, "Good answer with reasonable detail. Consider adding specific examples or discussing alternative approaches.")
    else if n < 80 then
      (⟨75, 10⟩, "Well-structured answer with good detail. You demonstrated solid understanding of the concepts.")
    else
      (⟨8, 1⟩, "Comprehensive answer with excellent detail. You showed deep understanding and considered multiple aspects.")
  let m := fallbackKeywordMatches domain answer
  let boosted : Frac × String :=
    if 0 < m then
      (Frac.fmin ⟨95, 10⟩ (Frac.add base.1 (Frac.fmin ⟨15, 10⟩ (Frac.mulNat ⟨3, 10⟩ m))),
       base.2 ++ " Great use of " ++ toString m ++ " relevant technical term" ++
         (if 1 < m then "s" else "") ++ ".")
    else base
  ⟨boosted.1, boosted.2, domainSuggestions domain⟩

/-- Embedding of `_parse_evaluation_response`: sentinel check, line scan, gibberish
check, length-based fallback, suggestion fill — in the source's order. -/
def parseEvaluationResponse (response question answer domain : String) : EvalResult :=
  if response = "Ollama not available" ∨ response = "Error generating response" then
    fallbackEvaluation question answer domain
  else
    let st := scanLines response.data
    let fb := joinFb st.fparts
    if fb.isEmpty ∧ Frac.beq st.score ⟨0, 1⟩ = true then
      if Frac.blt (wordRatio answer.data) ⟨3, 10⟩ = true ∨ (stripL answer.data).length < 5 then
        ⟨⟨1, 1⟩, gibberishFeedback, gibberishSuggestions⟩
      else
        fillSugg (lengthFallback answer domain) domain
    else
      fillSugg ⟨st.score, String.mk fb, st.sugg.map String.mk⟩ domain

/-- A knowledge-base section (`{"section": heading, "content": body}` as
built by `_split_markdown_content`). -/
structure KSection where
  heading : String
  content : String
deriving DecidableEq, Repr

/-- Keyword-overlap score of one section for a query:
`sum(1 for word in query_words if word in content_lower)` with
`query_words = query.lower().split()` (duplicate query tokens count
again). -/
def sectionScore (query content : String) : ℕ :=
  ((pyTokens (toLowerL query.data)).filter (fun w => containsL w (toLowerL content.data))).length

/-- The scored, positively-matching sections in document order
(`scored_sections` of `get_relevant_context`). -/
def scoredSections (query : String) (sections : List KSection) : List (ℕ × String) :=
  sections.filterMap (fun s =>
    let sc := sectionScore query s.content
    if 0 < sc then some (sc, s.content) else none)

/-- Ordering used to model Python's stable descending sort by score: higher
score first, equal scores in original position order. -/
def rankRel (a b : ℕ × ℕ × String) : Prop :=
  b.2.1 < a.2.1 ∨ (a.2.1 = b.2.1 ∧ a.1 ≤ b.1)

instance : DecidableRel rankRel := fun a b => by
  unfold rankRel
  exact inferInstance

instance : IsTotal (ℕ × ℕ × String) rankRel := by
  constructor
  intro a b
  rcases Nat.lt_trichotomy a.2.1 b.2.1 with h | h | h
  · exact Or.inr (Or.inl h)
  · rcases Nat.le_total a.1 b.1 with h' | h'
    · exact Or.inl (Or.inr ⟨h, h'⟩)
    · exact Or.inr (Or.inr ⟨h.symm, h'⟩)
  · exact Or.inl (Or.inl h)

instance : IsTrans (ℕ × ℕ × String) rankRel := by
  constructor
  intro a b c hab hbc
  rcases hab with h1 | ⟨h1, h1i⟩
  · rcases hbc with h2 | ⟨h2, _⟩
    · exact Or.inl (h2.trans h1)
    · exact Or.inl (h2 ▸ h1)
  · rcases hbc with h2 | ⟨h2, h2i⟩
    · exact Or.inl (h1 ▸ h2)
    · exact Or.inr ⟨h1.trans h2, h1i.trans h2i⟩

/-- The scored sections tagged with their position and sorted by descending
score, position order on ties: the model of
`scored_sections.sort(key=lambda x: x[0], reverse=True)` (Python's sort is
stable). -/
def rankedSections (query : String) (sections : List KSection) : List (ℕ × ℕ × String) :=
  List.insertionSort rankRel (scoredSections query sections).enum

/-- Embedding of `get_relevant_context(query, domain, n_results)` for a domain present in
the knowledge base, with that domain's section list passed explicitly (the
knowledge base itself is loaded from data files outside the backend
package).  A query containing `"topics"` short-circuits to the full heading
list; otherwise the at most `n_results` best-scoring section bodies are
returned. -/
def getRelevantContext (query : String) (sections : List KSection) (nResults : ℕ) : List String :=
  if containsL "topics".data (toLowerL query.data) then
    sections.map (fun s => s.heading)
  else
    ((rankedSections query sections).take nResults).map (fun p => p.2.2)

/-- A session row (`InterviewSession`): timestamps are integer minutes,
scores exact fractions. -/
structure Sess where
  id : ℕ
  domain : String
  difficulty : String
  durationMinutes : ℤ
  status : String
  score : Option Frac
  createdAt : ℤ
  completedAt : Option ℤ
deriving DecidableEq, Repr

/-- A question row (`InterviewQuestion`). -/
structure Ques where
  id : ℕ
  sessionId : ℕ
  questionText : String
  expectedAnswer : String
  userAnswer : Option String
  score : Option Frac
  feedback : Option String
  answeredAt : Option ℤ
deriving DecidableEq, Repr

/-- The persisted state a request handler sees for one session: the session
row and its questions in id (= creation) order, as returned by the
`order_by(InterviewQuestion.id.asc())` queries. -/
structure ServerState where
  session : Sess
  questions : List Ques
deriving DecidableEq, Repr

/-- The error outcomes surfaced by the handlers: 404 and the 410 "expired"
signal. -/
inductive ApiErr
  | notFound
  | expired
deriving DecidableEq, Repr

/-- The response of `QuestionResponse`. -/
structure QuestionResp where
  id : ℕ
  sessionId : ℕ
  questionText : String
  questionType : String
deriving DecidableEq, Repr

/-- The response of `AnswerFeedback`. -/
structure AnswerFb where
  questionId : ℕ
  score : Frac
  feedback : String
  suggestions : List String
deriving DecidableEq, Repr

/-- The data returned by `llm_service.generate_question` (external
generation; passed to the handler model as a parameter). -/
structure GenQ where
  questionText : String
  questionType : String
  expectedConcepts : String
deriving DecidableEq, Repr

/-- The deadline `session.created_at + timedelta(minutes=session.duration_minutes)`. -/
def sessionDeadline (s : Sess) : ℤ := s.createdAt + s.durationMinutes

/-- Division of a fraction by a (positive) natural number. -/
def Frac.divNat (a : Frac) (m : ℕ) : Frac := ⟨a.num, a.den * m⟩

/-- Nearest integer to a nonnegative fraction, ties to even (the rounding
of Python's `round`). -/
def halfEvenNat (x : Frac) : ℕ :=
  let q := x.num / x.den
  let r := x.num % x.den
  if 2 * r < x.den then q
  else if x.den < 2 * r then q + 1
  else if q % 2 = 0 then q else q + 1

/-- Python `round(x, 2)` on a nonnegative value: nearest multiple of
`1/100`, ties to even. -/
def round2 (x : Frac) : Frac := ⟨halfEvenNat ⟨x.num * 100, x.den⟩, 100⟩

/-- The completion procedure (`complete_session`): average the non-null
question scores, round to two decimals, mark completed now. -/
def completeSessionFn (st : ServerState) (now : ℤ) : Sess :=
  { st.session with
      score :=
        if (st.questions.filterMap (fun q => q.score)).isEmpty then st.session.score
        else some (round2 (Frac.divNat
          ((st.questions.filterMap (fun q => q.score)).foldl Frac.add ⟨0, 1⟩)
          (st.questions.filterMap (fun q => q.score)).length)),
      status := "completed",
      completedAt := some now }

/-- The implicit-completion step run by the handlers on an expired session
(`if session.status != "completed": await complete_session(...)`). -/
def expireStep (st : ServerState) (now : ℤ) : ServerState :=
  if st.session.status ≠ "completed" then { st with session := completeSessionFn st now } else st

/-- The test `not question_request.context or question_request.context.strip() == ""`. -/
def ctxEmpty : Option String → Bool
  | none => true
  | some c => (stripL c.data).isEmpty

/-- Fresh id for a newly inserted question row (autoincrement). -/
def newQuestionId (st : ServerState) : ℕ :=
  (st.questions.map (fun q => q.id)).foldr max 0 + 1

/-- The question row minted by the generation path of `get_next_question`. -/
def mintedQuestion (st : ServerState) (g : GenQ) : Ques :=
  { id := newQuestionId st, sessionId := st.session.id, questionText := g.questionText,
    expectedAnswer := g.expectedConcepts, userAnswer := none, score := none,
    feedback := none, answeredAt := none }

/-- Outcome of the generation path: persist a new question and return it. -/
def mintResult (st : ServerState) (g : GenQ) : Except ApiErr QuestionResp × ServerState :=
  let nq := mintedQuestion st g
  (Except.ok ⟨nq.id, nq.sessionId, nq.questionText, g.questionType⟩,
   { st with questions := st.questions ++ [nq] })

/-- Embedding of `get_next_question`: deadline check (with implicit completion), then the
replay / resume / generate decision on the prior-context string.  The
generated question data `g` parameterizes the external generation call. -/
def getNextQuestion (st : ServerState) (ctx : Option String) (g : GenQ) (now : ℤ) :
    Except ApiErr QuestionResp × ServerState :=
  if sessionDeadline st.session < now then
    (Except.error ApiErr.expired, expireStep st now)
  else if ctxEmpty ctx then
    match st.questions with
    | q :: _ => (Except.ok ⟨q.id, q.sessionId, q.questionText, "technical"⟩, st)
    | [] => mintResult st g
  else if containsL "Moving to next question".data (ctx.getD "").data then
    mintResult st g
  else
    match (st.questions.filter (fun q => q.userAnswer.isNone)).head? with
    | some q => (Except.ok ⟨q.id, q.sessionId, q.questionText, "technical"⟩, st)
    | none => mintResult st g

/-- The lookup `db.query(InterviewQuestion).filter(id == question_id).first()`. -/
def findQuestion (st : ServerState) (qid : ℕ) : Option Ques :=
  st.questions.find? (fun q => q.id == qid)

/-- Embedding of `submit_answer`: look up the question, re-check the deadline (with
implicit completion), then store answer, score, feedback and answered-at
together.  The evaluation `ev` parameterizes the
`llm_service.evaluate_answer` pipeline result. -/
def submitAnswer (st : ServerState) (qid : ℕ) (answerText : String) (ev : EvalResult) (now : ℤ) :
    Except ApiErr AnswerFb × ServerState :=
  match findQuestion st qid with
  | none => (Except.error ApiErr.notFound, st)
  | some _ =>
    if sessionDeadline st.session < now then
      (Except.error ApiErr.expired, expireStep st now)
    else
      (Except.ok ⟨qid, ev.score, ev.feedback, ev.suggestions⟩,
       { st with questions := st.questions.map (fun q =>
          if q.id == qid then
            { q with userAnswer := some answerText, score := some ev.score,
                     feedback := some ev.feedback, answeredAt := some now }
          else q) })

/-- All-or-none invariant on a question row: `user answer`, `score` and
`feedback` are all null or all non-null. -/
def allOrNone (q : Ques) : Prop :=
  (q.userAnswer = none ∧ q.score = none ∧ q.feedback = none) ∨
  (q.userAnswer ≠ none ∧ q.score ≠ none ∧ q.feedback ≠ none)

instance (q : Ques) : Decidable (allOrNone q) := by
  unfold allOrNone
  exact inferInstance

/-- A concrete active session used by witnesses. -/
def demoSession : Sess :=
  ⟨1, "Robotics", "medium", 45, "active", none, 0, none⟩

/-- A concrete unanswered question used by witnesses. -/
def demoQuestion : Ques :=
  ⟨1, 1, "What are the main components of a robotic system?", "", none, none, none, none⟩

/-- Concrete generated-question data used by witnesses. -/
def demoGen : GenQ :=
  ⟨"Explain PID control and its use in robotics.", "technical", "concepts"⟩

/-- A concrete state with one unanswered question. -/
def demoState : ServerState := ⟨demoSession, [demoQuestion]⟩

/-- A concrete evaluation result used by witnesses. -/
def demoEval : EvalResult := ⟨⟨75, 10⟩, "Good answer.", ["Add more detail"]⟩

/-- A concrete state with two answered, scored questions. -/
def demoScoredState : ServerState :=
  ⟨demoSession,
   [⟨1, 1, "q1", "", some "a1", some ⟨75, 10⟩, some "f1", some 5⟩,
    ⟨2, 1, "q2", "", some "a2", some ⟨8, 1⟩, some "f2", some 9⟩]⟩

/-- Four sections all matching the token "robotics", used to exercise the
relevance lookup. -/
def demoSections : List KSection :=
  [⟨"A", "robotics one"⟩, ⟨"B", "robotics two"⟩,
   ⟨"C", "robotics three"⟩, ⟨"D", "robotics four"⟩]

/-- Mathematical specification of Python's `round` to the nearest integer:
ties go to the even integer. -/
def roundHalfEven (x : ℚ) : ℤ :=
  if Int.fract x < 1 / 2 then ⌊x⌋
  else if 1 / 2 < Int.fract x then ⌊x⌋ + 1
  else if ⌊x⌋ % 2 = 0 then ⌊x⌋ else ⌊x⌋ + 1

/-- Mathematical specification of Python's `round(x, 2)`: nearest multiple
of `1/100`, ties to even. -/
def round2Q (x : ℚ) : ℚ := roundHalfEven (100 * x) / 100

theorem Frac.toRat_nonneg (f : Frac) : 0 ≤ f.toRat := by
  unfold Frac.toRat
  positivity

theorem Frac.blt_iff (a b : Frac) (ha : 0 < a.den) (hb : 0 < b.den) :
    Frac.blt a b = true ↔ a.toRat < b.toRat := by
  have ha' : (0 : ℚ) < a.den := by exact_mod_cast ha
  have hb' : (0 : ℚ) < b.den := by exact_mod_cast hb
  unfold Frac.blt Frac.toRat
  rw [div_lt_div_iff₀ ha' hb', decide_eq_true_iff]
  norm_cast

theorem Frac.add_toRat (a b : Frac) (ha : 0 < a.den) (hb : 0 < b.den) :
    (Frac.add a b).toRat = a.toRat + b.toRat := by
  unfold Frac.add Frac.toRat
  have ha' : (a.den : ℚ) ≠ 0 := by exact_mod_cast ha.ne'
  have hb' : (b.den : ℚ) ≠ 0 := by exact_mod_cast hb.ne'
  field_simp

theorem Frac.divNat_toRat (a : Frac) (m : ℕ) :
    (Frac.divNat a m).toRat = a.toRat / (m : ℚ) := by
  unfold Frac.divNat Frac.toRat
  push_cast
  rw [div_div]

theorem Frac.foldl_add_toRat (l : List Frac) (acc : Frac) (hacc : 0 < acc.den)
    (hl : ∀ f ∈ l, 0 < f.den) :
    (l.foldl Frac.add acc).toRat = acc.toRat + (l.map Frac.toRat).sum ∧
      0 < (l.foldl Frac.add acc).den := by
  induction l generalizing acc with
  | nil => simpa using hacc
  | cons f fs ih =>
    have hf : 0 < f.den := hl f (by simp)
    have hacc' : 0 < (Frac.add acc f).den := by
      unfold Frac.add
      exact Nat.mul_pos hacc hf
    have h := ih (Frac.add acc f) hacc' (fun g hg => hl g (by simp [hg]))
    refine ⟨?_, h.2⟩
    simp only [List.foldl_cons, List.map_cons, List.sum_cons]
    rw [h.1, Frac.add_toRat acc f hacc hf]
    ring

theorem halfEvenNat_eq (f : Frac) (hd : 0 < f.den) :
    (halfEvenNat f : ℤ) = roundHalfEven f.toRat := by
  have hdq : (0 : ℚ) < f.den := by exact_mod_cast hd
  have hrlt : f.num % f.den < f.den := Nat.mod_lt _ hd
  have hnum : ((f.num : ℚ)) =
      ((f.num / f.den : ℕ) : ℚ) * (f.den : ℚ) + ((f.num % f.den : ℕ) : ℚ) := by
    exact_mod_cast (Nat.div_add_mod' f.num f.den).symm
  have hx : f.toRat = ((f.num / f.den : ℕ) : ℚ) + ((f.num % f.den : ℕ) : ℚ) / (f.den : ℚ) := by
    unfold Frac.toRat
    rw [hnum, add_div, mul_div_cancel_right₀ _ hdq.ne']
  have hfr : (0 : ℚ) ≤ ((f.num % f.den : ℕ) : ℚ) / (f.den : ℚ) := by positivity
  have hfr1 : ((f.num % f.den : ℕ) : ℚ) / (f.den : ℚ) < 1 := by
    rw [div_lt_one hdq]
    exact_mod_cast hrlt
  have hfloor : ⌊f.toRat⌋ = ((f.num / f.den : ℕ) : ℤ) := by
    rw [Int.floor_eq_iff]
    constructor
    · rw [hx]
      simp only [Int.cast_natCast]
      linarith
    · rw [hx]
      simp only [Int.cast_natCast]
      linarith
  have hfract : Int.fract f.toRat = ((f.num % f.den : ℕ) : ℚ) / (f.den : ℚ) := by
    rw [Int.fract, hfloor, hx]
    simp only [Int.cast_natCast]
    ring
  have hlt : Int.fract f.toRat < 1 / 2 ↔ 2 * (f.num % f.den) < f.den := by
    rw [hfract, div_lt_div_iff₀ hdq (by norm_num : (0 : ℚ) < 2), one_mul]
    norm_cast
    omega
  have hgt : 1 / 2 < Int.fract f.toRat ↔ f.den < 2 * (f.num % f.den) := by
    rw [hfract, div_lt_div_iff₀ (by norm_num : (0 : ℚ) < 2) hdq, one_mul]
    norm_cast
    omega
  unfold halfEvenNat roundHalfEven
  rw [hfloor]
  by_cases h1 : 2 * (f.num % f.den) < f.den
  · rw [if_pos h1, if_pos (hlt.mpr h1)]
  · by_cases h2 : f.den < 2 * (f.num % f.den)
    · have hno : ¬ Int.fract f.toRat < 1 / 2 := by rw [hlt]; omega
      rw [if_neg h1, if_pos h2, if_neg hno, if_pos (hgt.mpr h2)]
      push_cast
      ring
    · have hno : ¬ Int.fract f.toRat < 1 / 2 := by rw [hlt]; omega
      have hno2 : ¬ 1 / 2 < Int.fract f.toRat := by rw [hgt]; omega
      rw [if_neg h1, if_neg h2, if_neg hno, if_neg hno2]
      by_cases h3 : f.num / f.den % 2 = 0
      · have h3i : ((f.num / f.den : ℕ) : ℤ) % 2 = 0 := by omega
        rw [if_pos h3, if_pos h3i]
      · have h3i : ¬ ((f.num / f.den : ℕ) : ℤ) % 2 = 0 := by omega
        rw [if_neg h3, if_neg h3i]
        push_cast
        ring

theorem round2_toRat (f : Frac) (hd : 0 < f.den) :
    (round2 f).toRat = round2Q f.toRat := by
  have hg : (⟨f.num * 100, f.den⟩ : Frac).toRat = 100 * f.toRat := by
    unfold Frac.toRat
    push_cast
    ring
  have h := halfEvenNat_eq ⟨f.num * 100, f.den⟩ hd
  rw [hg] at h
  unfold round2 round2Q
  rw [← h]
  unfold Frac.toRat
  push_cast
  norm_num

/-- C1: for a live (non-expired) session, a next-question request with
empty or absent prior context replays the first-created question unchanged
and leaves the state untouched, so a second empty-context call returns the
same question id; a new question is minted only when no question exists
yet. -/
theorem next_question_empty_ctx_idempotent
    (st : ServerState) (ctx : Option String) (g g' : GenQ) (now now' : ℤ)
    (hnow : ¬ sessionDeadline st.session < now)
    (hnow' : ¬ sessionDeadline st.session < now')
    (hctx : ctxEmpty ctx = true) :
    (∀ q rest, st.questions = q :: rest →
      getNextQuestion st ctx g now =
        (Except.ok ⟨q.id, q.sessionId, q.questionText, "technical"⟩, st) ∧
      (getNextQuestion (getNextQuestion st ctx g now).2 ctx g' now').1 =
        (getNextQuestion st ctx g now).1) ∧
    (st.questions = [] → getNextQuestion st ctx g now = mintResult st g) := by
  constructor
  · intro q rest hq
    have h1 : getNextQuestion st ctx g now =
        (Except.ok ⟨q.id, q.sessionId, q.questionText, "technical"⟩, st) := by
      unfold getNextQuestion
      rw [if_neg hnow, if_pos hctx, hq]
    refine ⟨h1, ?_⟩
    rw [h1]
    unfold getNextQuestion
    rw [if_neg hnow', if_pos hctx, hq]
  · intro hq
    unfold getNextQuestion
    rw [if_neg hnow, if_pos hctx, hq]

/-- Witness for C1 at a concrete live state: the existing question is
replayed with unchanged state, and replaying twice yields the same
response. -/
theorem next_question_empty_ctx_idempotent_witness :
    getNextQuestion demoState none demoGen 10 =
      (Except.ok ⟨1, 1, "What are the main components of a robotic system?", "technical"⟩,
       demoState) ∧
    (getNextQuestion (getNextQuestion demoState none demoGen 10).2 none demoGen 11).1 =
      (getNextQuestion demoState none demoGen 10).1 := by
  have h := next_question_empty_ctx_idempotent demoState none demoGen demoGen 10 11
    (by decide) (by decide) (by decide)
  exact (h.1 demoQuestion [] rfl)

/-- C2: a next-question or submit-answer request on a session whose
deadline lies strictly before `now` first runs the completion procedure
(when the session is not already completed) and then fails with the
distinct expired signal, returning no question and no evaluation. -/
theorem expired_request_completes_then_fails
    (st : ServerState) (ctx : Option String) (g : GenQ) (qid : ℕ) (ans : String)
    (ev : EvalResult) (now : ℤ)
    (hexp : sessionDeadline st.session < now) :
    getNextQuestion st ctx g now = (Except.error ApiErr.expired, expireStep st now) ∧
    ((findQuestion st qid).isSome = true →
      submitAnswer st qid ans ev now = (Except.error ApiErr.expired, expireStep st now)) ∧
    (st.session.status ≠ "completed" →
      (expireStep st now).session = completeSessionFn st now ∧
      (expireStep st now).session.status = "completed") ∧
    (st.session.status = "completed" → expireStep st now = st) := by
  refine ⟨?_, ?_, ?_, ?_⟩
  · unfold getNextQuestion
    rw [if_pos hexp]
  · intro hq
    unfold submitAnswer
    cases hfq : findQuestion st qid with
    | none => rw [hfq] at hq; simp at hq
    | some q0 => simp only [if_pos hexp]
  · intro hne
    unfold expireStep
    rw [if_pos hne]
    exact ⟨rfl, rfl⟩
  · intro he
    unfold expireStep
    rw [if_neg (by simp [he])]

/-- Witness for C2 at a concrete expired state (deadline 45, now 100): both
handlers fail expired and the session is completed first. -/
theorem expired_request_completes_then_fails_witness :
    getNextQuestion demoState none demoGen 100 =
      (Except.error ApiErr.expired, expireStep demoState 100) ∧
    submitAnswer demoState 1 "late answer" demoEval 100 =
      (Except.error ApiErr.expired, expireStep demoState 100) ∧
    (expireStep demoState 100).session.status = "completed" := by
  have h := expired_request_completes_then_fails demoState none demoGen 1 "late answer"
    demoEval 100 (by decide)
  exact ⟨h.1, h.2.1 (by decide), (h.2.2.1 (by decide)).2⟩

/-- C3: the completion procedure sets status `completed` and the completion
timestamp to `now`; when at least one question has a non-null score it sets
the aggregate score to the half-even two-decimal rounding of the mean of
those scores, and when none has it leaves the aggregate score unchanged
(so unset stays unset). -/
theorem complete_session_scoring (st : ServerState) (now : ℤ)
    (hdens : ∀ q ∈ st.questions, ∀ f, q.score = some f → 0 < f.den) :
    (completeSessionFn st now).status = "completed" ∧
    (completeSessionFn st now).completedAt = some now ∧
    (st.questions.filterMap (fun q => q.score) = [] →
      (completeSessionFn st now).score = st.session.score) ∧
    (st.questions.filterMap (fun q => q.score) ≠ [] →
      Option.map Frac.toRat (completeSessionFn st now).score =
        some (round2Q
          (((st.questions.filterMap (fun q => q.score)).map Frac.toRat).sum /
            ((st.questions.filterMap (fun q => q.score)).length : ℚ)))) := by
  have hdpos : ∀ f ∈ st.questions.filterMap (fun q => q.score), 0 < f.den := by
    intro f hf
    rcases List.mem_filterMap.mp hf with ⟨q, hq, hqs⟩
    exact hdens q hq f hqs
  refine ⟨rfl, rfl, ?_, ?_⟩
  · intro hnil
    unfold completeSessionFn
    rw [if_pos (by rw [List.isEmpty_iff]; exact hnil)]
  · intro hne
    have hlen : 0 < (st.questions.filterMap (fun q => q.score)).length :=
      List.length_pos.mpr hne
    have hfold := Frac.foldl_add_toRat (st.questions.filterMap (fun q => q.score))
      ⟨0, 1⟩ (by norm_num) hdpos
    unfold completeSessionFn
    rw [if_neg (by rw [List.isEmpty_iff]; exact hne)]
    rw [Option.map_some']
    congr 1
    rw [round2_toRat _ (by unfold Frac.divNat; exact Nat.mul_pos hfold.2 hlen)]
    congr 1
    rw [Frac.divNat_toRat, hfold.1]
    norm_num [Frac.toRat]

/-- Witness for C3 at a concrete state with scores 7.5 and 8: completion
marks the session completed at time 50 and stores the rounded mean. -/
theorem complete_session_scoring_witness :
    (completeSessionFn demoScoredState 50).status = "completed" ∧
    (completeSessionFn demoScoredState 50).completedAt = some 50 ∧
    Option.map Frac.toRat (completeSessionFn demoScoredState 50).score =
      some (round2Q
        (((demoScoredState.questions.filterMap (fun q => q.score)).map Frac.toRat).sum /
          ((demoScoredState.questions.filterMap (fun q => q.score)).length : ℚ))) := by
  have h := complete_session_scoring demoScoredState 50 (by decide)
  exact ⟨h.1, h.2.1, h.2.2.2 (by decide)⟩

/-- The implicit-completion step never touches the question rows. -/
theorem expireStep_questions (st : ServerState) (now : ℤ) :
    (expireStep st now).questions = st.questions := by
  unfold expireStep
  split <;> rfl

/-- C9: an answer submission mutates the owning question atomically: if
every question satisfies the all-or-none invariant on answer, score and
feedback beforehand, every question does afterwards, and on any failing
(not-found or expired) submission no question row changes at all. -/
theorem submit_answer_atomic
    (st : ServerState) (qid : ℕ) (ans : String) (ev : EvalResult) (now : ℤ)
    (hinv : ∀ q ∈ st.questions, allOrNone q) :
    (∀ q ∈ (submitAnswer st qid ans ev now).2.questions, allOrNone q) ∧
    (∀ e, (submitAnswer st qid ans ev now).1 = Except.error e →
      (submitAnswer st qid ans ev now).2.questions = st.questions) := by
  unfold submitAnswer
  cases hfq : findQuestion st qid with
  | none => exact ⟨hinv, fun _ _ => rfl⟩
  | some q0 =>
    by_cases hexp : sessionDeadline st.session < now
    · rw [if_pos hexp]
      exact ⟨by rw [expireStep_questions]; exact hinv, fun _ _ => expireStep_questions st now⟩
    · rw [if_neg hexp]
      constructor
      · intro q hq
        rcases List.mem_map.mp hq with ⟨p, hp, hpe⟩
        by_cases hid : (p.id == qid) = true
        · rw [if_pos hid] at hpe
          rw [← hpe]
          right
          exact ⟨by simp, by simp, by simp⟩
        · rw [if_neg hid] at hpe
          rw [← hpe]
          exact hinv p hp
      · intro e he
        exact absurd he (by simp)

/-- Witness for C9 at a concrete state: after answering question 1, every
question row still satisfies the all-or-none invariant, and the answered
row has all three fields set. -/
theorem submit_answer_atomic_witness :
    (∀ q ∈ (submitAnswer demoState 1 "sensors and actuators" demoEval 10).2.questions,
      allOrNone q) ∧
    (submitAnswer demoState 1 "sensors and actuators" demoEval 10).2.questions =
      [⟨1, 1, "What are the main components of a robotic system?", "",
        some "sensors and actuators", some ⟨75, 10⟩, some "Good answer.", some 10⟩] := by
  have h := submit_answer_atomic demoState 1 "sensors and actuators" demoEval 10 (by decide)
  exact ⟨h.1, by decide⟩

/-- Positive denominators are preserved by `fmin`. -/
theorem Frac.fmin_den_pos (a b : Frac) (ha : 0 < a.den) (hb : 0 < b.den) :
    0 < (Frac.fmin a b).den := by
  unfold Frac.fmin
  split
  · exact hb
  · exact ha

/-- Positive denominators are preserved by `fmax`. -/
theorem Frac.fmax_den_pos (a b : Frac) (ha : 0 < a.den) (hb : 0 < b.den) :
    0 < (Frac.fmax a b).den := by
  unfold Frac.fmax
  split
  · exact hb
  · exact ha

/-- The value `fmin a b` is at most `a` (as a rational), for positive denominators. -/
theorem Frac.fmin_toRat_le_left (a b : Frac) (ha : 0 < a.den) (hb : 0 < b.den) :
    (Frac.fmin a b).toRat ≤ a.toRat := by
  unfold Frac.fmin
  split
  · next h => exact le_of_lt ((Frac.blt_iff b a hb ha).mp h)
  · exact le_refl _

/-- The suggestion fill never changes the score. -/
theorem fillSugg_score (r : EvalResult) (d : String) : (fillSugg r d).score = r.score := by
  unfold fillSugg
  split <;> rfl

/-- The fallback evaluation's score interpreted in `ℚ` is at most 10. -/
theorem fallbackEvaluation_score_le (q a d : String) :
    (fallbackEvaluation q a d).score.toRat ≤ 10 := by
  simp only [fallbackEvaluation]
  have hb : ∀ base : Frac, 0 < base.den →
      (Frac.fmin ⟨95, 10⟩ (Frac.add base (Frac.fmin ⟨15, 10⟩
        (Frac.mulNat ⟨3, 10⟩ (fallbackKeywordMatches d a))))).toRat ≤ 10 := by
    intro base hbase
    have h1 : 0 < (Frac.fmin ⟨15, 10⟩ (Frac.mulNat ⟨3, 10⟩ (fallbackKeywordMatches d a))).den :=
      Frac.fmin_den_pos _ _ (by norm_num) (by norm_num [Frac.mulNat])
    calc (Frac.fmin ⟨95, 10⟩ _).toRat ≤ (⟨95, 10⟩ : Frac).toRat := by
          refine Frac.fmin_toRat_le_left _ _ (by norm_num) ?_
          unfold Frac.add
          exact Nat.mul_pos hbase h1
      _ ≤ 10 := by norm_num [Frac.toRat]
  split
  · exact hb _ (by split_ifs <;> decide)
  · split_ifs <;> norm_num [Frac.toRat]

/-- C4 (amended): every fallback evaluation has score in [0, 10]; a parsed
evaluation has score in [0, 10] provided the value scanned off the `Score:`
line is at most 10 — the scanned value itself is taken verbatim, unclamped
(scores are nonnegative by construction, so only the upper bound can
fail). -/
theorem evaluation_score_range (resp q a d : String)
    (hscan : (scanLines resp.data).score.toRat ≤ 10) :
    (0 ≤ (fallbackEvaluation q a d).score.toRat ∧
      (fallbackEvaluation q a d).score.toRat ≤ 10) ∧
    (0 ≤ (parseEvaluationResponse resp q a d).score.toRat ∧
      (parseEvaluationResponse resp q a d).score.toRat ≤ 10) := by
  refine ⟨⟨Frac.toRat_nonneg _, fallbackEvaluation_score_le q a d⟩,
    Frac.toRat_nonneg _, ?_⟩
  simp only [parseEvaluationResponse]
  split
  · exact fallbackEvaluation_score_le q a d
  · split
    · split
      · norm_num [Frac.toRat]
      · rw [fillSugg_score]
        simp only [lengthFallback]
        have hle : (Frac.fmin ⟨9, 1⟩
            (Frac.fmax ⟨4, 1⟩ ⟨(pyTokens a.data).length, 8⟩)).toRat ≤ 10 := by
          calc (Frac.fmin ⟨9, 1⟩ _).toRat ≤ (⟨9, 1⟩ : Frac).toRat :=
                Frac.fmin_toRat_le_left _ _ (by norm_num)
                  (Frac.fmax_den_pos _ _ (by norm_num) (by norm_num))
            _ ≤ 10 := by norm_num [Frac.toRat]
        split
        · exact hle
        · split
          · exact hle
          · exact hle
    · rw [fillSugg_score]
      exact hscan

/-- Witness for C4 (amended) at a concrete in-range generation output. -/
theorem evaluation_score_range_witness :
    0 ≤ (parseEvaluationResponse "Score: 7" "q" "solid answer here" "Robotics").score.toRat ∧
    (parseEvaluationResponse "Score: 7" "q" "solid answer here" "Robotics").score.toRat ≤ 10 ∧
    0 ≤ (fallbackEvaluation "q" "solid answer here" "Robotics").score.toRat ∧
    (fallbackEvaluation "q" "solid answer here" "Robotics").score.toRat ≤ 10 := by
  have h := evaluation_score_range "Score: 7" "q" "solid answer here" "Robotics" (by
    have hs : (scanLines "Score: 7".data).score = ⟨7, 1⟩ := by decide
    rw [hs]
    norm_num [Frac.toRat])
  exact ⟨h.2.1, h.2.2, h.1.1, h.1.2⟩

/-- C4 counterexample: the generation output `"Score: 15"` parses to score
15, outside [0, 10] — the C4 invariant fails as stated for parsed
evaluations. -/
theorem parse_score_exceeds_ten :
    (parseEvaluationResponse "Score: 15" "q" "a reasonable answer" "x").score = ⟨15, 1⟩ ∧
    ¬ (parseEvaluationResponse "Score: 15" "q" "a reasonable answer" "x").score.toRat ≤ 10 := by
  have h : (parseEvaluationResponse "Score: 15" "q" "a reasonable answer" "x").score
      = ⟨15, 1⟩ := by decide
  refine ⟨h, ?_⟩
  rw [h]
  norm_num [Frac.toRat]

/-- C5 (amended): when the line scan extracts no feedback and score 0.0,
the gibberish test compares the real-word ratio (count of
`\b[a-zA-Z]{3,}\b` matches over whitespace tokens) with 0.3 and the
stripped length with 5, forcing score 1.0 with the fixed gibberish
feedback and suggestions; but for the answer `"asdkj qpx 991"` the ratio
is 2/3, not below 0.3 (both "asdkj" and "qpx" match the real-word shape),
so that answer instead gets the length-based score 4.0, while a genuinely
gibberish answer such as `"zx qp 991"` gets 1.0 with feedback containing
"gibberish". -/
theorem gibberish_detection :
    (∀ resp q a d : String,
      resp ≠ "Ollama not available" → resp ≠ "Error generating response" →
      (joinFb (scanLines resp.data).fparts).isEmpty = true →
      (scanLines resp.data).score.num = 0 →
      (Frac.blt (wordRatio a.data) ⟨3, 10⟩ = true ∨ (stripL a.data).length < 5) →
      parseEvaluationResponse resp q a d =
        ⟨⟨1, 1⟩, gibberishFeedback, gibberishSuggestions⟩) ∧
    wordRatio "asdkj qpx 991".data = ⟨2, 3⟩ ∧
    Frac.blt (wordRatio "asdkj qpx 991".data) ⟨3, 10⟩ = false ∧
    (parseEvaluationResponse "" "q" "asdkj qpx 991" "x").score = ⟨4, 1⟩ ∧
    parseEvaluationResponse "" "q" "zx qp 991" "x" =
      ⟨⟨1, 1⟩, gibberishFeedback, gibberishSuggestions⟩ ∧
    containsL "gibberish".data gibberishFeedback.data = true := by
  refine ⟨?_, by decide, by decide, by decide, by decide, by decide⟩
  intro resp q a d h1 h2 hfb hsc hgib
  simp only [parseEvaluationResponse]
  rw [if_neg (by simp [h1, h2])]
  rw [if_pos ⟨hfb, by simp [Frac.beq, hsc]⟩, if_pos hgib]

/-- Witness for C5 (amended): a gibberish-shaped answer under an
uninformative generation output is forced to 1.0 with the fixed
feedback. -/
theorem gibberish_detection_witness :
    parseEvaluationResponse "unparseable" "q2" "qq zz 123" "Robotics" =
      ⟨⟨1, 1⟩, gibberishFeedback, gibberishSuggestions⟩ :=
  gibberish_detection.1 "unparseable" "q2" "qq zz 123" "Robotics"
    (by decide) (by decide) (by decide) (by decide) (by decide)

/-- C5 counterexample: for the claimed scenario answer `"asdkj qpx 991"`
the evaluation is the length-based 4.0 and the feedback does not mention
gibberish, refuting "score = 1.0 and feedback contains gibberish". -/
theorem gibberish_scenario_fails :
    (parseEvaluationResponse "" "q" "asdkj qpx 991" "x").score.toRat = 4 ∧
    (4 : ℚ) ≠ 1 ∧
    containsL "gibberish".data
      (parseEvaluationResponse "" "q" "asdkj qpx 991" "x").feedback.data = false := by
  have h : (parseEvaluationResponse "" "q" "asdkj qpx 991" "x").score = ⟨4, 1⟩ := by decide
  refine ⟨by rw [h]; norm_num [Frac.toRat], by norm_num, by decide⟩

/-- C6 (amended): with no keyword matches, the fallback evaluation scores
by the word-count bands <5→2.0, <15→4.0, <40→6.5, <80→7.5, else 8.0, each
with its fixed feedback text. -/
theorem fallback_band_scores (q a d : String)
    (hm : fallbackKeywordMatches d a = 0) :
    (fallbackEvaluation q a d).score.toRat =
      (if (pyTokens a.data).length < 5 then 2
       else if (pyTokens a.data).length < 15 then 4
       else if (pyTokens a.data).length < 40 then 65 / 10
       else if (pyTokens a.data).length < 80 then 75 / 10 else 8) ∧
    (fallbackEvaluation q a d).feedback =
      (if (pyTokens a.data).length < 5 then
        "Your answer is too brief. Technical interviews require detailed explanations with specific examples."
       else if (pyTokens a.data).length < 15 then
        "Your answer covers some basics but needs more detail. Try to explain the reasoning behind your approach."
       else if (pyTokens a.data).length < 40 then
        "Good answer with reasonable detail. Consider adding specific examples or discussing alternative approaches."
       else if (pyTokens a.data).length < 80 then
        "Well-structured answer with good detail. You demonstrated solid understanding of the concepts."
       else
        "Comprehensive answer with excellent detail. You showed deep understanding and considered multiple aspects.") := by
  simp only [fallbackEvaluation, hm, lt_self_iff_false, if_false]
  constructor
  · split_ifs <;> norm_num [Frac.toRat]
  · split_ifs <;> rfl

/-- Witness for C6 (amended) at a six-word answer with no keyword
matches: band <15 gives score 4.0. -/
theorem fallback_band_scores_witness :
    (fallbackEvaluation "q" "alpha beta gamma delta epsilon zeta" "x").score.toRat = 4 := by
  have h := fallback_band_scores "q" "alpha beta gamma delta epsilon zeta" "x" (by decide)
  have hn : (pyTokens "alpha beta gamma delta epsilon zeta".data).length = 6 := by decide
  rw [h.1, hn]
  norm_num

/-- C6 counterexample: a three-word answer with no keyword matches scores
2.0, not the 2.5 the claimed bands (<3→1.0, <8→2.5, ...) demand. -/
theorem fallback_band_scenario_fails :
    (fallbackEvaluation "q" "alpha beta gamma" "x").score.toRat = 2 ∧ (2 : ℚ) ≠ 5 / 2 := by
  have h : (fallbackEvaluation "q" "alpha beta gamma" "x").score = ⟨2, 1⟩ := by decide
  exact ⟨by rw [h]; norm_num [Frac.toRat], by norm_num⟩

/-- C7 (amended): the fallback evaluation has no literal non-answer
detection; an answer such as "no idea" is scored by the word-count bands
like any other (2 words → score 2.0 with the too-brief feedback and the
domain suggestion bank), never 0.5. -/
theorem nonanswer_scored_by_bands :
    fallbackEvaluation "q" "no idea" "Robotics" =
      ⟨⟨2, 1⟩,
       "Your answer is too brief. Technical interviews require detailed explanations with specific examples.",
       domainSuggestions "Robotics"⟩ := by decide

/-- C7 counterexample: the answer "no idea" contains a non-answer phrase
(case-insensitively), yet the fallback scores it 2.0, not 0.5, with no
encouragement-to-reason feedback — there is no phrase detection in the
code. -/
theorem nonanswer_detection_missing :
    containsL (toLowerL "no idea".data) (toLowerL "no idea".data) = true ∧
    (fallbackEvaluation "q" "no idea" "Robotics").score.toRat = 2 ∧
    (2 : ℚ) ≠ 1 / 2 := by
  have h : (fallbackEvaluation "q" "no idea" "Robotics").score = ⟨2, 1⟩ := by decide
  exact ⟨by decide, by rw [h]; norm_num [Frac.toRat], by norm_num⟩

/-- C10: the one-line generation output "Score: 1" parses to score 1.0
with empty feedback and suggestions filled from the domain bank, even for
a gibberish-shaped answer (ratio 0 < 0.3) — so the gibberish and
length-based fallbacks run only when the parsed score is exactly 0.0 with
empty feedback; a score-0 output that carries feedback also skips them. -/
theorem parse_score_line_without_feedback :
    parseEvaluationResponse "Score: 1" "q" "zx qp" "Robotics" =
      ⟨⟨1, 1⟩, "", domainSuggestions "Robotics"⟩ ∧
    Frac.blt (wordRatio "zx qp".data) ⟨3, 10⟩ = true ∧
    (parseEvaluationResponse "Score: 0\nRelevance_Check: Fail" "q" "zx qp" "Robotics").score
      = ⟨0, 1⟩ ∧
    (parseEvaluationResponse "Score: 0\nRelevance_Check: Fail" "q" "zx qp" "Robotics").feedback
      = "Relevance: Fail" := by
  exact ⟨by decide, by decide, by decide, by decide⟩

/-- C8 (amended): when the query contains "topics" (case-insensitively)
the relevance lookup short-circuits and returns every section heading,
ignoring the limit; otherwise it returns at most `n` section bodies, drawn
from the positively-scoring sections sorted by descending keyword-overlap
count (query tokens counted with multiplicity), ties preserving document
order. -/
theorem relevant_context_ranked (query : String) (sections : List KSection) (n : ℕ) :
    (containsL "topics".data (toLowerL query.data) = true →
      getRelevantContext query sections n = sections.map (fun s => s.heading)) ∧
    (containsL "topics".data (toLowerL query.data) = false →
      (getRelevantContext query sections n).length ≤ n ∧
      List.Sorted rankRel (rankedSections query sections) ∧
      getRelevantContext query sections n =
        ((rankedSections query sections).take n).map (fun p => p.2.2)) := by
  constructor
  · intro h
    unfold getRelevantContext
    rw [if_pos h]
  · intro h
    refine ⟨?_, List.sorted_insertionSort rankRel _, ?_⟩
    · unfold getRelevantContext
      rw [if_neg (by simp [h])]
      rw [List.length_map, List.length_take]
      exact min_le_left _ _
    · unfold getRelevantContext
      rw [if_neg (by simp [h])]

/-- Witness for C8 (amended) at a topics-free query over the demo
sections: at most 2 results, drawn in rank order from the sorted scored
sections. -/
theorem relevant_context_ranked_witness :
    (getRelevantContext "robotics" demoSections 2).length ≤ 2 ∧
    List.Sorted rankRel (rankedSections "robotics" demoSections) ∧
    getRelevantContext "robotics" demoSections 2 =
      ((rankedSections "robotics" demoSections).take 2).map (fun p => p.2.2) := by
  exact (relevant_context_ranked "robotics" demoSections 2).2 (by decide)

/-- C8 counterexample: the claimed scenario query
`relevant("robotics interview topics", "robotics", 3)` contains "topics",
so the lookup returns all four section headings of the demo knowledge
base — more than the limit 3, and headings rather than section bodies. -/
theorem relevant_context_scenario_fails :
    getRelevantContext "robotics interview topics" demoSections 3 = ["A", "B", "C", "D"] ∧
    ¬ (getRelevantContext "robotics interview topics" demoSections 3).length ≤ 3 := by
  exact ⟨by decide, by decide⟩
